import Mathlib

/-!
Shallow embedding of `use-codemirror` (src/useCodeMirror.tsx): the
`CodeMirrorInstance` class (its `update`, `updateDocIfRequired` and
`handleChanges` methods), the mode-resolution logic of
`useEditorConfiguration` / `getDefaultMode` / `modeAliases`, and the
mount/unmount lifecycle of the `useCodeMirror` hook.

The external CodeMirror library is modelled by explicit state: a heap of
document objects addressed by allocation ids (so JavaScript reference
identity becomes id equality), the editor's current document id, and the
editor's live option table.  Imperative editor calls (`setValue`,
`swapDoc`, `setOption`, `setCursor`, ...) are recorded in a trace of
`Call` values.
-/

namespace UseCodeMirror

/-- JavaScript runtime values as they occur in editor configuration tables.
`obj n` stands for an object reference with identity `n`, so the strict
(in)equality operators `===` / `!==` of the source become decidable
equality here. -/
inductive JSVal where
  | undef : JSVal
  | bool : Bool → JSVal
  | str : String → JSVal
  | num : Int → JSVal
  | obj : Nat → JSVal
deriving DecidableEq, Repr

/-- JavaScript truthiness of a `JSVal`. -/
def JSVal.truthy : JSVal → Bool
  | .undef => false
  | .bool b => b
  | .str s => s ≠ ""
  | .num n => n ≠ 0
  | .obj _ => true

/-- JavaScript truthiness of an optional boolean prop (`undefined` is falsy). -/
def truthyOB : Option Bool → Bool
  | none => false
  | some b => b

/-- Association-list lookup (first binding wins), used for the document
registry, the document heap and configuration tables. -/
def lookupA {α β : Type} [DecidableEq α] : List (α × β) → α → Option β
  | [], _ => none
  | (k, v) :: rest, key => if k = key then some v else lookupA rest key

/-- Association-list update: overwrite the first binding of `key`, or append
a fresh binding.  Models JavaScript property assignment `m[key] = v`. -/
def setA {α β : Type} [DecidableEq α] : List (α × β) → α → β → List (α × β)
  | [], key, v => [(key, v)]
  | (k, w) :: rest, key, v =>
      if k = key then (key, v) :: rest else (k, w) :: setA rest key v

/-- Cursor position (`CodeMirror.Position`): a line and a column. -/
structure Position where
  line : Nat
  ch : Nat
deriving DecidableEq, Repr

/-- State of one CodeMirror `Doc` object.  `history` is opaque data owned by
the external library (undo history accumulated by user edits); the adapter
never writes it, it only matters that document switching preserves it. -/
structure DocState where
  text : String
  mode : JSVal
  cursor : Position
  selections : List (Position × Position)
  history : List String
deriving DecidableEq, Repr

/-- Document heap: allocation id to document state. -/
abbrev Store := List (Nat × DocState)

/-- Default document used by `docAt` when an id is dangling (never happens in
reachable states). -/
def defaultDoc : DocState := ⟨"", JSVal.undef, ⟨0, 0⟩, [], []⟩

/-- Dereference a document id in the heap. -/
def docAt (store : Store) (i : Nat) : DocState :=
  (lookupA store i).getD defaultDoc

/-- State of a `CodeMirrorInstance` plus the library state it owns: the
document heap, a fresh-id counter, the instance's `docs` registry
(name to document id, cf. field `docs` of the class), the editor's current
document (`editor.getDoc()`), and the editor's live option table. -/
structure InstanceState where
  store : Store
  nextId : Nat
  docs : List (String × Nat)
  curDoc : Nat
  editorOptions : List (String × JSVal)
deriving DecidableEq, Repr

/-- Imperative calls made against the CodeMirror library, recorded as a trace. -/
inductive Call where
  | setValue : String → Call
  | swapDoc : Nat → Call
  | setOption : String → JSVal → Call
  | setSelections : List (Position × Position) → Call
  | focus : Call
  | setCursor : Position → Bool → Call
  | scrollTo : Option Int → Option Int → Call
  | disposeInstance : Call
deriving DecidableEq, Repr

/-- Selection request (`options.selection`).  `ranges` is optional here
because the source guards on `options.selection.ranges` being truthy. -/
structure SelectionSpec where
  ranges : Option (List (Position × Position))
  focus : Option Bool
deriving DecidableEq, Repr

/-- Scroll request (`options.scroll`); `null` and `undefined` coordinates are
both collapsed into `none`. -/
structure ScrollSpec where
  x : Option Int
  y : Option Int
deriving DecidableEq, Repr

/-- The per-render `Options` structure (`CodeMirrorInstanceOptions`): the
user-supplied props after configuration resolution.  `doc` is an explicit
document object, modelled by its heap id.  `config` is the resolved
configuration table; `onChange` records whether an `onChange` callback was
supplied. -/
structure Options where
  autoCursor : Option Bool
  autoScroll : Option Bool
  cursor : Option Position
  doc : Option Nat
  docName : Option String
  scroll : Option ScrollSpec
  selection : Option SelectionSpec
  value : Option String
  config : List (String × JSVal)
  onChange : Bool
deriving DecidableEq, Repr

/-- Configuration lookup `config[key]` (`undefined` when absent). -/
def cfgGet (config : List (String × JSVal)) (k : String) : JSVal :=
  (lookupA config k).getD JSVal.undef

/-- Editor-option lookup `editor.getOption(key)`. -/
def eoGet (eo : List (String × JSVal)) (k : String) : JSVal :=
  (lookupA eo k).getD JSVal.undef

/-- Character-level line-ending normalization: `\r\n` and bare `\r` both
become `\n` (the regex `/\r\n|\r/g` of the source). -/
def normalizeChars : List Char → List Char
  | [] => []
  | '\r' :: '\n' :: rest => '\n' :: normalizeChars rest
  | '\r' :: rest => '\n' :: normalizeChars rest
  | c :: rest => c :: normalizeChars rest

/-- Translation of `normalizeLineEndings` (source lines 490-493): empty
(falsy) strings are returned unchanged, otherwise line endings are
normalized. -/
def normalizeLineEndings (s : String) : String :=
  if s = "" then s else String.mk (normalizeChars s.data)

/-- Translation of `CodeMirrorInstance.updateDocIfRequired` (source lines
313-334).  Resolves the document for the current `docName` (defaulting to
the empty string), creating and registering a fresh document from the
current value and configured mode when none exists, re-registers it, and
swaps it into the editor when it differs from the currently displayed
document.  Returns the resolved document id, the new state, and the call
trace. -/
def updateDocIfRequired (st : InstanceState) (opts : Options) :
    Nat × InstanceState × List Call :=
  let mode := cfgGet opts.config "mode"
  let docName := opts.docName.getD ""
  -- resolve/create step: document id, heap, fresh-id counter
  let r : Nat × Store × Nat :=
    match opts.doc with
    | some d => (d, st.store, st.nextId)
    | none =>
        match lookupA st.docs docName with
        | some d => (d, st.store, st.nextId)
        | none =>
            (st.nextId,
             (st.nextId, ⟨opts.value.getD "", mode, ⟨0, 0⟩, [], []⟩) :: st.store,
             st.nextId + 1)
  let d := r.1
  let docs2 := setA st.docs docName d
  if d ≠ st.curDoc then
    (d, { store := r.2.1, nextId := r.2.2, docs := docs2, curDoc := d,
          editorOptions := st.editorOptions }, [Call.swapDoc d])
  else
    (d, { store := r.2.1, nextId := r.2.2, docs := docs2, curDoc := st.curDoc,
          editorOptions := st.editorOptions }, [])

/-- State after the document-switching step of `update`. -/
def udirState (st : InstanceState) (opts : Options) : InstanceState :=
  (updateDocIfRequired st opts).2.1

/-- Cursor captured for preservation (source lines 256-260): captured exactly
when `!options.autoCursor && options.autoCursor !== undefined` holds, i.e.
when `autoCursor` is defined and falsy. -/
def preservedCursor (st1 : InstanceState) (opts : Options) : Option Position :=
  if (!truthyOB opts.autoCursor) && opts.autoCursor.isSome then
    some ((docAt st1.store st1.curDoc).cursor)
  else
    none

/-- Value-replacement step of `update` (source lines 264-273).  `oldValue` is
the value of `oldOptions`; the source initializes `oldOptions` from the
*incoming* options (`const oldOptions = options`, line 249), so `update`
passes the incoming value for both arguments.  Returns `didUpdateValue`,
the heap, and the trace. -/
def valuePhase (store : Store) (cur : Nat) (oldValue newValue : Option String) :
    Bool × Store × List Call :=
  match newValue with
  | none => (false, store, [])
  | some v =>
      if normalizeLineEndings (docAt store cur).text ≠ normalizeLineEndings v
          ∧ oldValue ≠ some v then
        (true, setA store cur { docAt store cur with text := v }, [Call.setValue v])
      else
        (false, store, [])

/-- Keys of the configuration table (`Object.keys(this.options.config)`). -/
def configKeys (config : List (String × JSVal)) : List String :=
  config.map Prod.fst

/-- Changed configuration keys (source lines 279-281): keys whose live editor
option differs (`!==`) from the configured value. -/
def configDelta (eo config : List (String × JSVal)) : List String :=
  (configKeys config).filter (fun k => decide (eoGet eo k ≠ cfgGet config k))

/-- Application of the changed keys (source lines 282-284): each key in
`delta` is written to the editor's option table with its configured value. -/
def applyKeys (config : List (String × JSVal)) :
    List (String × JSVal) → List String → List (String × JSVal) × List Call
  | eo, [] => (eo, [])
  | eo, k :: rest =>
      let r := applyKeys config (setA eo k (cfgGet config k)) rest
      (r.1, Call.setOption k (cfgGet config k) :: r.2)

/-- Selection step of `update` (source lines 287-292): applied only when the
value was just replaced and a truthy `ranges` array was requested. -/
def selectionPhase (store : Store) (cur : Nat) (didUpdateValue : Bool)
    (sel : Option SelectionSpec) : Store × List Call :=
  if didUpdateValue then
    match sel with
    | some s =>
        match s.ranges with
        | some rs =>
            (setA store cur { docAt store cur with selections := rs },
             Call.setSelections rs :: (if truthyOB s.focus then [Call.focus] else []))
        | none => (store, [])
    | none => (store, [])
  else
    (store, [])

/-- Cursor step of `update` (source lines 295-304): when a cursor was
requested, focus first if the live `autofocus` option is truthy, then set
the cursor to `preserved.cursor || options.cursor`, passing
`{ scroll: false }` (here: suppression flag `true`) unless `autoScroll` is
truthy. -/
def cursorPhase (store : Store) (cur : Nat) (eo : List (String × JSVal))
    (preserved : Option Position) (cursorReq : Option Position)
    (autoScroll : Option Bool) : Store × List Call :=
  match cursorReq with
  | none => (store, [])
  | some c =>
      let target := preserved.getD c
      (setA store cur { docAt store cur with cursor := target },
       (if (eoGet eo "autofocus").truthy then [Call.focus] else [])
         ++ [Call.setCursor target (!truthyOB autoScroll)])

/-- Scroll step of `update` (source lines 307-309). -/
def scrollPhase : Option ScrollSpec → List Call
  | none => []
  | some sc => [Call.scrollTo sc.x sc.y]

/-- Translation of `CodeMirrorInstance.update` (source lines 248-310).  Note
line 249 reads `const oldOptions = options`: it aliases the *incoming*
options object rather than the previous `this.options`, so the
value-replacement guard `oldOptions.value !== options.value` compares the
incoming value with itself.  (`!oldOptions` of line 269 is omitted: the
typed parameter is always an object, hence truthy.) -/
def update (st : InstanceState) (opts : Options) : InstanceState × List Call :=
  let oldOptions := opts
  let st1 := udirState st opts
  let dcalls := (updateDocIfRequired st opts).2.2
  let preserved := preservedCursor st1 opts
  let r1 := valuePhase st1.store st1.curDoc oldOptions.value opts.value
  let r2 := applyKeys opts.config st1.editorOptions
              (configDelta st1.editorOptions opts.config)
  let r3 := selectionPhase r1.2.1 st1.curDoc r1.1 opts.selection
  let r4 := cursorPhase r3.1 st1.curDoc r2.1 preserved opts.cursor opts.autoScroll
  ({ store := r4.1, nextId := st1.nextId, docs := st1.docs, curDoc := st1.curDoc,
     editorOptions := r2.1 },
   dcalls ++ r1.2.2 ++ r2.2 ++ r3.2 ++ r4.2 ++ scrollPhase opts.scroll)

/-- Translation of the `CodeMirrorInstance` constructor (source lines
209-234): the library constructor creates an editor whose initial document
is an empty throwaway (heap id 0) and whose options are the supplied
configuration; `updateDocIfRequired` then resolves and swaps in the real
document. -/
def initialState (opts : Options) : InstanceState :=
  { store := [(0, defaultDoc)], nextId := 1, docs := [], curDoc := 0,
    editorOptions := opts.config }

/-- The constructor body after editor creation: `this.updateDocIfRequired()`
run on the initial state (source line 224). -/
def mkInstance (opts : Options) : InstanceState × List Call :=
  ((updateDocIfRequired (initialState opts) opts).2.1,
   (updateDocIfRequired (initialState opts) opts).2.2)

/-- One reported text change (`CodeMirror.EditorChange`), reduced to its
`origin` field, the only field the handler inspects. -/
structure Change where
  origin : Option String
deriving DecidableEq, Repr

/-- Origin of `changes[0]` (only consulted under `changes.length === 1`). -/
def headOrigin : List Change → Option String
  | [] => none
  | c :: _ => c.origin

/-- Translation of `CodeMirrorInstance.handleChanges` (source lines 341-357).
Returns whether the user's `onChange` callback is invoked: notifications
consisting of exactly one change with origin `'setValue'` are dropped, and
otherwise `onChange` fires only when `config.readOnly` is falsy and a
callback is present. -/
def handleChanges (opts : Options) (changes : List Change) : Bool :=
  if changes.length = 1 ∧ headOrigin changes = some "setValue" then
    false
  else
    (!(cfgGet opts.config "readOnly").truthy) && opts.onChange

/-- Substring after the last `'.'` of `s` (the whole string when there is no
dot): translation of `docName.split('.').reverse()[0]` (source line 434),
since splitting on a single-character separator and taking the last
component yields exactly the suffix after the last separator. -/
def afterLastDot (s : String) : String :=
  String.mk (s.data.foldl (fun acc c => if c = '.' then [] else acc ++ [c]) [])

/-- Translation of `getDefaultMode` (source lines 433-435): falsy `docName`
values (`undefined`, `""`) are returned unchanged by `docName && ...`. -/
def getDefaultMode : Option String → Option String
  | none => none
  | some s => if s = "" then some "" else some (afterLastDot s)

/-- The fixed alias table `modeAliases` (source lines 399-405). -/
def modeAliases : List (String × String) :=
  [("js", "jsx"), ("html", "htmlmixed"), ("md", "markdown"),
   ("mdx", "markdown"), ("scss", "text/x-scss")]

/-- Alias application `modeAliases[mode] || mode` (source line 478). -/
def applyAlias (m : String) : String :=
  (lookupA modeAliases m).getD m

/-- Mode resolution of `useEditorConfiguration` (source lines 466-468 and
478): when the given mode is falsy, derive it from the document name, then
map it through the alias table. -/
def resolveMode (mode : Option String) (docName : Option String) : Option String :=
  let m := if mode = none ∨ mode = some "" then getDefaultMode docName else mode
  match m with
  | none => none
  | some s => some (applyAlias s)

/-- Mutable refs of one `useCodeMirror` hook invocation together with the
`isMounted` guard variable of its mount effect (source lines 112-166).
`instanceRef` holds the attached instance id; `externalRef` and
`nodePromiseRef` record whether those refs are still populated. -/
structure HookRefs where
  isMounted : Bool
  instanceRef : Option Nat
  externalRef : Bool
  nodePromiseRef : Bool
deriving DecidableEq, Repr

/-- The effect cleanup (source lines 154-164): clear the guard flag, dispose
the instance if one was attached, and delete the instance, external-ref and
node-promise refs. -/
def cleanupRefs (h : HookRefs) : HookRefs × List Call :=
  ({ isMounted := false, instanceRef := none, externalRef := false,
     nodePromiseRef := false },
   if h.instanceRef.isSome then [Call.disposeInstance] else [])

/-- The `then` continuation of the load promise (source lines 144-152): the
freshly constructed instance is attached only while the guard flag is still
set.  The load itself is never cancelled: this continuation still runs when
it completes after unmount, it just attaches nothing. -/
def loadThen (h : HookRefs) (inst : Nat) : HookRefs :=
  if h.isMounted then { h with instanceRef := some inst } else h

/-- The editor handle exposed by the hook (source lines 168-169):
`(instanceRef.current && instanceRef.current.editor) || undefined`.  The
outer `Option` is the presence of an instance, the inner one the presence
of its (possibly disposed) editor. -/
def editorOf : Option (Option Nat) → Option Nat
  | none => none
  | some e => e

/-- The `focus` function returned by the hook (source line 174):
`() => editor && editor.focus()`, recorded as a call trace. -/
def focusFn : Option Nat → List Call
  | none => []
  | some _ => [Call.focus]

/-- Document id that `updateDocIfRequired` resolves for the given options in
the given state: the explicit `doc` prop if present, otherwise the
registered document for the (defaulted) name, otherwise a fresh id. -/
def resolvedDocId (st : InstanceState) (opts : Options) : Nat :=
  match opts.doc with
  | some d => d
  | none =>
      match lookupA st.docs (opts.docName.getD "") with
      | some d => d
      | none => st.nextId

/-- The editor's current text, `editor.getValue()`. -/
def getValue (st : InstanceState) : String :=
  (docAt st.store st.curDoc).text

/-- Recognizer for `setValue` calls in a trace. -/
def isSetValueCall : Call → Bool
  | Call.setValue _ => true
  | _ => false

/-- Options record with every prop absent, the base of the concrete test
inputs below. -/
def baseOpts : Options :=
  { autoCursor := none, autoScroll := none, cursor := none, doc := none,
    docName := none, scroll := none, selection := none, value := none,
    config := [], onChange := false }

/-- Concrete input: mount options with `value: "a"`. -/
def optsValA : Options := { baseOpts with value := some "a" }

/-- Concrete input: update options with `value: "b"`. -/
def optsValB : Options := { baseOpts with value := some "b" }

/-- Concrete state: instance mounted with `value: "a"` (editor shows `"a"`). -/
def stHasA : InstanceState := (mkInstance optsValA).1

/-- Concrete input: mount options with `docName: "a"`. -/
def optsDocA : Options := { baseOpts with docName := some "a", value := some "x" }

/-- Concrete input: update options with `docName: "b"`. -/
def optsDocB : Options := { baseOpts with docName := some "b", value := some "x" }

/-- Concrete state: instance mounted with `docName: "a"`, so document id 1 is
registered under `"a"` and displayed. -/
def stDocA : InstanceState := (mkInstance optsDocA).1

/-- Concrete input: update options asking for a cursor with `autoCursor:
false`. -/
def optsCursor : Options :=
  { baseOpts with autoCursor := some false, cursor := some ⟨1, 2⟩ }

/-- Concrete input: options with a read-only configuration and an `onChange`
callback. -/
def optsReadOnly : Options :=
  { baseOpts with config := [("readOnly", JSVal.bool true)], onChange := true }

/-- Concrete input: options with an `onChange` callback and default (writable)
configuration. -/
def optsOnChange : Options := { baseOpts with onChange := true }

/-- Concrete change whose origin is the adapter's own `setValue`. -/
def chSetValue : Change := ⟨some "setValue"⟩

/-- Concrete change reported for a user edit. -/
def chInput : Change := ⟨some "+input"⟩

/-- Concrete input: options whose configuration sets a `theme` key. -/
def optsTheme : Options :=
  { baseOpts with config := [("theme", JSVal.str "dark")] }

/-- Concrete input: update options with a fresh `docName: "n"`. -/
def optsDocN : Options :=
  { baseOpts with docName := some "n", value := some "hello" }

theorem lookupA_setA_self {α β : Type} [DecidableEq α]
    (l : List (α × β)) (k : α) (v : β) : lookupA (setA l k v) k = some v := by
  induction l with
  | nil => simp [setA, lookupA]
  | cons hd tl ih =>
      obtain ⟨k₀, v₀⟩ := hd
      by_cases h : k₀ = k
      · simp [setA, h, lookupA]
      · simp [setA, h, lookupA, ih]

theorem lookupA_setA_ne {α β : Type} [DecidableEq α]
    (l : List (α × β)) (k j : α) (v : β) (hne : k ≠ j) :
    lookupA (setA l k v) j = lookupA l j := by
  induction l with
  | nil => simp [setA, lookupA, hne]
  | cons hd tl ih =>
      obtain ⟨k₀, v₀⟩ := hd
      by_cases h : k₀ = k
      · subst h
        simp [setA, lookupA, hne]
      · simp [setA, h, lookupA, ih]

theorem lookupA_setA_isSome {α β : Type} [DecidableEq α]
    (l : List (α × β)) (k j : α) (v : β)
    (h : (lookupA l j).isSome) : (lookupA (setA l k v) j).isSome := by
  by_cases hkj : k = j
  · subst hkj
    simp [lookupA_setA_self]
  · rwa [lookupA_setA_ne l k j v hkj]

theorem udir_fst (st : InstanceState) (opts : Options) :
    (updateDocIfRequired st opts).1 = resolvedDocId st opts := by
  unfold updateDocIfRequired resolvedDocId
  cases opts.doc with
  | none =>
      cases h : lookupA st.docs (opts.docName.getD "") <;> simp [h] <;> split <;> rfl
  | some d => simp <;> split <;> rfl

theorem udir_curDoc (st : InstanceState) (opts : Options) :
    (udirState st opts).curDoc = resolvedDocId st opts := by
  unfold udirState updateDocIfRequired resolvedDocId
  cases opts.doc with
  | none =>
      cases h : lookupA st.docs (opts.docName.getD "") <;> simp [h] <;> split <;> simp_all
  | some d => simp <;> split <;> simp_all

theorem udir_docs (st : InstanceState) (opts : Options) :
    (udirState st opts).docs
      = setA st.docs (opts.docName.getD "") (resolvedDocId st opts) := by
  unfold udirState updateDocIfRequired resolvedDocId
  cases opts.doc with
  | none =>
      cases h : lookupA st.docs (opts.docName.getD "") <;> simp [h] <;> split <;> rfl
  | some d => simp <;> split <;> rfl

theorem udir_editorOptions (st : InstanceState) (opts : Options) :
    (udirState st opts).editorOptions = st.editorOptions := by
  unfold udirState updateDocIfRequired
  cases opts.doc with
  | none =>
      cases h : lookupA st.docs (opts.docName.getD "") <;> simp [h] <;> split <;> rfl
  | some d => simp <;> split <;> rfl

theorem udir_store_lookup (st : InstanceState) (opts : Options) (i : Nat)
    (hi : i ≠ st.nextId) :
    lookupA (udirState st opts).store i = lookupA st.store i := by
  unfold udirState updateDocIfRequired
  cases opts.doc with
  | none =>
      cases h : lookupA st.docs (opts.docName.getD "") <;> simp [h] <;> split <;>
        simp [lookupA, Ne.symm hi]
  | some d => simp <;> split <;> rfl

theorem update_docs (st : InstanceState) (opts : Options) :
    (update st opts).1.docs = (udirState st opts).docs := rfl

theorem update_curDoc (st : InstanceState) (opts : Options) :
    (update st opts).1.curDoc = (udirState st opts).curDoc := rfl

theorem update_editorOptions (st : InstanceState) (opts : Options) :
    (update st opts).1.editorOptions
      = (applyKeys opts.config (udirState st opts).editorOptions
          (configDelta (udirState st opts).editorOptions opts.config)).1 := rfl

theorem update_store (st : InstanceState) (opts : Options) :
    (update st opts).1.store
      = (cursorPhase
          (selectionPhase
            (valuePhase (udirState st opts).store (udirState st opts).curDoc
              opts.value opts.value).2.1
            (udirState st opts).curDoc
            (valuePhase (udirState st opts).store (udirState st opts).curDoc
              opts.value opts.value).1
            opts.selection).1
          (udirState st opts).curDoc
          (applyKeys opts.config (udirState st opts).editorOptions
            (configDelta (udirState st opts).editorOptions opts.config)).1
          (preservedCursor (udirState st opts) opts)
          opts.cursor opts.autoScroll).1 := rfl

theorem update_calls (st : InstanceState) (opts : Options) :
    (update st opts).2
      = (updateDocIfRequired st opts).2.2
        ++ (valuePhase (udirState st opts).store (udirState st opts).curDoc
              opts.value opts.value).2.2
        ++ (applyKeys opts.config (udirState st opts).editorOptions
              (configDelta (udirState st opts).editorOptions opts.config)).2
        ++ (selectionPhase
              (valuePhase (udirState st opts).store (udirState st opts).curDoc
                opts.value opts.value).2.1
              (udirState st opts).curDoc
              (valuePhase (udirState st opts).store (udirState st opts).curDoc
                opts.value opts.value).1
              opts.selection).2
        ++ (cursorPhase
              (selectionPhase
                (valuePhase (udirState st opts).store (udirState st opts).curDoc
                  opts.value opts.value).2.1
                (udirState st opts).curDoc
                (valuePhase (udirState st opts).store (udirState st opts).curDoc
                  opts.value opts.value).1
                opts.selection).1
              (udirState st opts).curDoc
              (applyKeys opts.config (udirState st opts).editorOptions
                (configDelta (udirState st opts).editorOptions opts.config)).1
              (preservedCursor (udirState st opts) opts)
              opts.cursor opts.autoScroll).2
        ++ scrollPhase opts.scroll := rfl

theorem valuePhase_self (store : Store) (cur : Nat) (v : Option String) :
    valuePhase store cur v v = (false, store, []) := by
  unfold valuePhase
  cases v with
  | none => rfl
  | some s => simp

theorem selectionPhase_store_frame (store : Store) (cur : Nat) (b : Bool)
    (sel : Option SelectionSpec) (i : Nat) (hi : i ≠ cur) :
    lookupA (selectionPhase store cur b sel).1 i = lookupA store i := by
  unfold selectionPhase
  split
  · cases sel with
    | none => rfl
    | some s =>
        obtain ⟨ranges, fc⟩ := s
        cases ranges with
        | none => simp
        | some rs => simp [lookupA_setA_ne _ _ _ _ (Ne.symm hi)]
  · rfl

theorem cursorPhase_store_frame (store : Store) (cur : Nat)
    (eo : List (String × JSVal)) (pres cq : Option Position)
    (asc : Option Bool) (i : Nat) (hi : i ≠ cur) :
    lookupA (cursorPhase store cur eo pres cq asc).1 i = lookupA store i := by
  unfold cursorPhase
  cases cq with
  | none => rfl
  | some c => simp [lookupA_setA_ne _ _ _ _ (Ne.symm hi)]

theorem cursorPhase_text (store : Store) (cur : Nat)
    (eo : List (String × JSVal)) (pres cq : Option Position)
    (asc : Option Bool) (i : Nat) :
    (docAt (cursorPhase store cur eo pres cq asc).1 i).text
      = (docAt store i).text := by
  unfold cursorPhase
  cases cq with
  | none => rfl
  | some c =>
      by_cases hi : i = cur
      · subst hi
        simp [docAt, lookupA_setA_self]
      · simp [docAt, lookupA_setA_ne _ _ _ _ (Ne.symm hi)]

theorem cursorPhase_mode (store : Store) (cur : Nat)
    (eo : List (String × JSVal)) (pres cq : Option Position)
    (asc : Option Bool) (i : Nat) :
    (docAt (cursorPhase store cur eo pres cq asc).1 i).mode
      = (docAt store i).mode := by
  unfold cursorPhase
  cases cq with
  | none => rfl
  | some c =>
      by_cases hi : i = cur
      · subst hi
        simp [docAt, lookupA_setA_self]
      · simp [docAt, lookupA_setA_ne _ _ _ _ (Ne.symm hi)]

theorem cursorPhase_setCursor_mem (store : Store) (cur : Nat)
    (eo : List (String × JSVal)) (pres : Option Position) (c : Position)
    (asc : Option Bool) :
    Call.setCursor (pres.getD c) (!truthyOB asc)
      ∈ (cursorPhase store cur eo pres (some c) asc).2 := by
  unfold cursorPhase
  simp

theorem selectionPhase_false (store : Store) (cur : Nat)
    (sel : Option SelectionSpec) :
    selectionPhase store cur false sel = (store, []) := rfl

theorem applyKeys_setOption_notMem (config : List (String × JSVal))
    (k : String) (v : JSVal) :
    ∀ (delta : List String) (eo : List (String × JSVal)), k ∉ delta →
      Call.setOption k v ∉ (applyKeys config eo delta).2 := by
  intro delta
  induction delta with
  | nil => intro eo _ hmem; simp [applyKeys] at hmem
  | cons d rest ih =>
      intro eo h hmem
      have hkd : k ≠ d := fun he => h (he ▸ List.mem_cons_self d rest)
      have hkr : k ∉ rest := fun hm => h (List.mem_cons_of_mem d hm)
      rcases List.mem_cons.mp hmem with he | hm
      · injection he with h1 _
        exact hkd h1
      · exact ih _ hkr hm

theorem applyKeys_lookup_notMem (config : List (String × JSVal)) (k : String) :
    ∀ (delta : List String) (eo : List (String × JSVal)), k ∉ delta →
      lookupA (applyKeys config eo delta).1 k = lookupA eo k := by
  intro delta
  induction delta with
  | nil => intro eo _; rfl
  | cons d rest ih =>
      intro eo h
      have hkd : k ≠ d := fun he => h (he ▸ List.mem_cons_self d rest)
      have hkr : k ∉ rest := fun hm => h (List.mem_cons_of_mem d hm)
      show lookupA (applyKeys config (setA eo d (cfgGet config d)) rest).1 k
        = lookupA eo k
      rw [ih _ hkr, lookupA_setA_ne _ _ _ _ (Ne.symm hkd)]

theorem applyKeys_lookup_mem (config : List (String × JSVal)) (k : String) :
    ∀ (delta : List String) (eo : List (String × JSVal)), k ∈ delta →
      lookupA (applyKeys config eo delta).1 k = some (cfgGet config k) := by
  intro delta
  induction delta with
  | nil => intro eo h; simp at h
  | cons d rest ih =>
      intro eo h
      by_cases hr : k ∈ rest
      · exact ih _ hr
      · have hkd : k = d := by
          rcases List.mem_cons.mp h with he | hm
          · exact he
          · exact absurd hm hr
        subst hkd
        show lookupA (applyKeys config (setA eo k (cfgGet config k)) rest).1 k
          = some (cfgGet config k)
        rw [applyKeys_lookup_notMem _ _ _ _ hr, lookupA_setA_self]

theorem applyKeys_calls_shape (config : List (String × JSVal)) :
    ∀ (delta : List String) (eo : List (String × JSVal)),
      ∀ c ∈ (applyKeys config eo delta).2, ∃ k v, c = Call.setOption k v := by
  intro delta
  induction delta with
  | nil => intro eo c hc; simp [applyKeys] at hc
  | cons d rest ih =>
      intro eo c hc
      rcases List.mem_cons.mp hc with he | hm
      · exact ⟨d, cfgGet config d, he⟩
      · exact ih _ c hm

theorem udir_calls_shape (st : InstanceState) (opts : Options) :
    (updateDocIfRequired st opts).2.2 = []
    ∨ (updateDocIfRequired st opts).2.2
        = [Call.swapDoc (resolvedDocId st opts)] := by
  unfold updateDocIfRequired resolvedDocId
  cases opts.doc with
  | none =>
      cases h : lookupA st.docs (opts.docName.getD "") <;> simp [h] <;> split <;>
        simp_all
  | some d => simp <;> split <;> simp_all

theorem cursorPhase_calls_shape (store : Store) (cur : Nat)
    (eo : List (String × JSVal)) (pres cq : Option Position)
    (asc : Option Bool) :
    ∀ c ∈ (cursorPhase store cur eo pres cq asc).2,
      c = Call.focus ∨ ∃ p b, c = Call.setCursor p b := by
  unfold cursorPhase
  cases cq with
  | none => intro c hc; simp at hc
  | some p =>
      intro c hc
      simp only at hc
      rcases List.mem_append.mp hc with h1 | h2
      · left
        by_cases hf : (eoGet eo "autofocus").truthy
        · simp [hf] at h1; exact h1
        · simp [hf] at h1
      · right
        rcases List.mem_singleton.mp h2 with rfl
        exact ⟨_, _, rfl⟩

theorem selectionPhase_calls_shape (store : Store) (cur : Nat) (b : Bool)
    (sel : Option SelectionSpec) :
    ∀ c ∈ (selectionPhase store cur b sel).2,
      c = Call.focus ∨ ∃ rs, c = Call.setSelections rs := by
  unfold selectionPhase
  split
  · cases sel with
    | none => intro c hc; simp at hc
    | some s =>
        obtain ⟨ranges, fc⟩ := s
        cases ranges with
        | none => intro c hc; simp at hc
        | some rs =>
            intro c hc
            simp only at hc
            rcases List.mem_cons.mp hc with h1 | h2
            · exact Or.inr ⟨rs, h1⟩
            · left
              by_cases hf : truthyOB fc
              · simp [hf] at h2; exact h2
              · simp [hf] at h2
  · intro c hc; simp at hc

theorem scrollPhase_calls_shape (sc : Option ScrollSpec) :
    ∀ c ∈ scrollPhase sc, ∃ x y, c = Call.scrollTo x y := by
  cases sc with
  | none => intro c hc; simp [scrollPhase] at hc
  | some s =>
      intro c hc
      rcases List.mem_singleton.mp hc with rfl
      exact ⟨_, _, rfl⟩

theorem valuePhase_calls_shape (store : Store) (cur : Nat)
    (o n : Option String) :
    ∀ c ∈ (valuePhase store cur o n).2.2, ∃ s, c = Call.setValue s := by
  intro c hc
  unfold valuePhase at hc
  split at hc
  · replace hc : c ∈ ([] : List Call) := hc
    simp at hc
  · rename_i v
    split at hc
    · replace hc : c ∈ [Call.setValue v] := hc
      rcases List.mem_singleton.mp hc with rfl
      exact ⟨v, rfl⟩
    · replace hc : c ∈ ([] : List Call) := hc
      simp at hc

theorem eoGet_update (st : InstanceState) (opts : Options) (k : String)
    (hk : k ∈ configKeys opts.config) :
    eoGet (update st opts).1.editorOptions k = cfgGet opts.config k := by
  rw [update_editorOptions]
  by_cases hd : k ∈ configDelta (udirState st opts).editorOptions opts.config
  · unfold eoGet
    rw [applyKeys_lookup_mem _ _ _ _ hd]
    rfl
  · unfold eoGet
    rw [applyKeys_lookup_notMem _ _ _ _ hd]
    have hcond :
        ¬ (eoGet (udirState st opts).editorOptions k ≠ cfgGet opts.config k) := by
      intro hne
      exact hd (by
        unfold configDelta
        exact List.mem_filter.mpr ⟨hk, by simpa using hne⟩)
    exact not_not.mp hcond

theorem update_store_frame (st : InstanceState) (opts : Options) (i : Nat)
    (hlt : i < st.nextId) (hne : resolvedDocId st opts ≠ i) :
    lookupA (update st opts).1.store i = lookupA st.store i := by
  have hcur : i ≠ (udirState st opts).curDoc := by
    rw [udir_curDoc]
    exact fun h => hne h.symm
  rw [update_store, cursorPhase_store_frame _ _ _ _ _ _ _ hcur,
    selectionPhase_store_frame _ _ _ _ _ hcur, valuePhase_self]
  exact udir_store_lookup st opts i (Nat.ne_of_lt hlt)

theorem udir_store_creation (st : InstanceState) (opts : Options)
    (hdoc : opts.doc = none)
    (hlook : lookupA st.docs (opts.docName.getD "") = none) :
    lookupA (udirState st opts).store st.nextId
      = some ⟨opts.value.getD "", cfgGet opts.config "mode", ⟨0, 0⟩, [], []⟩ := by
  unfold udirState updateDocIfRequired
  simp only [hdoc, hlook]
  split <;> simp [lookupA]

theorem update_store_eq (st : InstanceState) (opts : Options) :
    (update st opts).1.store
      = (cursorPhase (udirState st opts).store (udirState st opts).curDoc
          (applyKeys opts.config (udirState st opts).editorOptions
            (configDelta (udirState st opts).editorOptions opts.config)).1
          (preservedCursor (udirState st opts) opts)
          opts.cursor opts.autoScroll).1 := by
  rw [update_store]
  simp only [valuePhase_self, selectionPhase_false]

theorem update_calls_eq (st : InstanceState) (opts : Options) :
    (update st opts).2
      = (updateDocIfRequired st opts).2.2
        ++ ((applyKeys opts.config (udirState st opts).editorOptions
              (configDelta (udirState st opts).editorOptions opts.config)).2
        ++ ((cursorPhase (udirState st opts).store (udirState st opts).curDoc
              (applyKeys opts.config (udirState st opts).editorOptions
                (configDelta (udirState st opts).editorOptions opts.config)).1
              (preservedCursor (udirState st opts) opts)
              opts.cursor opts.autoScroll).2
        ++ scrollPhase opts.scroll)) := by
  rw [update_calls]
  simp only [valuePhase_self, selectionPhase_false, List.append_nil,
    List.nil_append, List.append_assoc]

theorem update_no_setValue (st : InstanceState) (opts : Options) (v : String) :
    Call.setValue v ∉ (update st opts).2 := by
  intro hmem
  rw [update_calls_eq] at hmem
  rcases List.mem_append.mp hmem with h | h
  · rcases udir_calls_shape st opts with he | he <;> rw [he] at h
    · simp at h
    · exact Call.noConfusion (List.mem_singleton.mp h)
  · rcases List.mem_append.mp h with h | h
    · rcases applyKeys_calls_shape _ _ _ _ h with ⟨k, w, hk⟩
      exact Call.noConfusion hk
    · rcases List.mem_append.mp h with h | h
      · rcases cursorPhase_calls_shape _ _ _ _ _ _ _ h with h1 | ⟨p, b, h1⟩
        · exact Call.noConfusion h1
        · exact Call.noConfusion h1
      · rcases scrollPhase_calls_shape _ _ h with ⟨x, y, h1⟩
        exact Call.noConfusion h1

/-- C1: the claim requires an update whose value changed from `"a"` to `"b"`
to make exactly one text-replacement (`setValue`) call with `"b"`.  The
code makes none: line 249 (`const oldOptions = options`) captures the
*incoming* options object instead of the previous `this.options`, so the
guard `oldOptions.value !== options.value` (line 269) compares the incoming
value with itself and is identically false, making the replacement dead
code — contradicting the comment at lines 262-263 ("If a new value has been
set, and it differs from the editor's current value, then set it in the
editor").  Evaluated at the failing input (editor showing `"a"`, update
with value `"b"`): the update emits no `setValue` call; and in general no
update ever emits one. -/
theorem c1_changed_value_never_replaced :
    getValue stHasA = "a" ∧ optsValB.value = some "b"
    ∧ (update stHasA optsValB).2.filter isSetValueCall = []
    ∧ ∀ (st : InstanceState) (opts : Options) (v : String),
        Call.setValue v ∉ (update st opts).2 :=
  ⟨by decide, by decide, by decide, update_no_setValue⟩

/-- C4: whenever the current configuration's `readOnly` field is `true`, a
change notification never invokes the user's `onChange` callback, whatever
the reported changes are. -/
theorem c4_readOnly_suppresses_onChange (opts : Options) (changes : List Change)
    (h : cfgGet opts.config "readOnly" = JSVal.bool true) :
    handleChanges opts changes = false := by
  unfold handleChanges
  split
  · rfl
  · rw [h]
    rfl

/-- Witness for C4 at a concrete input: a read-only configuration with an
`onChange` callback and a user-edit change still invokes nothing. -/
theorem c4_witness : handleChanges optsReadOnly [chInput] = false :=
  c4_readOnly_suppresses_onChange optsReadOnly [chInput] (by decide)

/-- C5: a notification consisting of exactly one change whose origin is
`'setValue'` is dropped without invoking `onChange`; a notification with an
additional change alongside it is not suppressed by this filter — its
outcome is decided solely by the `readOnly`/`onChange` check. -/
theorem c5_setValue_origin_filtered (opts : Options) (c c' : Change)
    (rest : List Change) (h : c.origin = some "setValue") :
    handleChanges opts [c] = false
    ∧ handleChanges opts (c :: c' :: rest)
        = ((!(cfgGet opts.config "readOnly").truthy) && opts.onChange) := by
  constructor
  · unfold handleChanges
    rw [if_pos ⟨rfl, h⟩]
  · unfold handleChanges
    rw [if_neg (by
      rintro ⟨h1, _⟩
      simp only [List.length_cons] at h1
      omega)]

/-- Witness for C5 at concrete inputs: with an `onChange` callback present, a
lone `setValue`-origin change invokes nothing, while the same change
accompanied by a user edit leaves the decision to the `readOnly`/`onChange`
check (which here invokes the callback). -/
theorem c5_witness :
    (handleChanges optsOnChange [chSetValue] = false
      ∧ handleChanges optsOnChange [chSetValue, chInput]
          = ((!(cfgGet optsOnChange.config "readOnly").truthy)
              && optsOnChange.onChange))
    ∧ handleChanges optsOnChange [chSetValue, chInput] = true :=
  ⟨c5_setValue_origin_filtered optsOnChange chSetValue chInput [] (by decide),
   by decide⟩

/-- C8: after the effect cleanup runs, the mounted-guard flag is cleared and
the instance, external-ref and node-promise references are all released;
when the asynchronous load completes afterwards, its (uncancelled)
continuation still runs but attaches no instance, leaving the state
unchanged. -/
theorem c8_unmount_before_load (h : HookRefs) (inst : Nat) :
    (cleanupRefs h).1.isMounted = false
    ∧ (cleanupRefs h).1.instanceRef = none
    ∧ (cleanupRefs h).1.externalRef = false
    ∧ (cleanupRefs h).1.nodePromiseRef = false
    ∧ loadThen (cleanupRefs h).1 inst = (cleanupRefs h).1 :=
  ⟨rfl, rfl, rfl, rfl, rfl⟩

/-- C9: with no explicit mode, the resolved mode is the document name's
suffix after the last `'.'` mapped through the alias table — in particular
`"x.js"` resolves to `"jsx"` — and an explicitly given (truthy) mode is
used unchanged apart from the same alias mapping. -/
theorem c9_mode_resolution (s m : String) (d : Option String)
    (hs : s ≠ "") (hm : m ≠ "") :
    resolveMode none (some s) = some (applyAlias (afterLastDot s))
    ∧ resolveMode (some m) d = some (applyAlias m)
    ∧ resolveMode none (some "x.js") = some "jsx" := by
  refine ⟨?_, ?_, by decide⟩
  · simp [resolveMode, getDefaultMode, hs]
  · simp [resolveMode, hm]

/-- Witness for C9 at concrete inputs: `docName "x.js"` with no mode resolves
to `"jsx"`, and the explicit mode `"markdown"` passes through unchanged. -/
theorem c9_witness :
    resolveMode none (some "x.js") = some (applyAlias (afterLastDot "x.js"))
    ∧ resolveMode (some "markdown") none = some (applyAlias "markdown")
    ∧ resolveMode none (some "x.js") = some "jsx" :=
  c9_mode_resolution "x.js" "markdown" none (by decide) (by decide)

/-- C10: while no instance has been attached (before construction, or after
unmount cleared the ref), the hook's `focus` function resolves no editor
and performs no call; once an editor exists it delegates to the editor's
`focus` method. -/
theorem c10_focus_noop_without_editor (r : Option (Option Nat)) (ed : Nat) :
    focusFn (editorOf none) = []
    ∧ focusFn (editorOf (some none)) = []
    ∧ (editorOf r = some ed → focusFn (editorOf r) = [Call.focus]) := by
  refine ⟨rfl, rfl, ?_⟩
  intro h
  rw [h]
  rfl

/-- Witness for C10 at a concrete input: with an attached instance whose
editor is present, `focus` delegates to the editor. -/
theorem c10_witness : focusFn (editorOf (some (some 5))) = [Call.focus] :=
  (c10_focus_noop_without_editor (some (some 5)) 5).2.2 rfl

/-- C3: in every update the current cursor is captured for preservation
exactly when `autoCursor` is explicitly `false` (never when `true` or
absent), and when a cursor position is requested the `setCursor` call uses
the preserved cursor in precedence over the requested one
(`preserved.cursor || options.cursor`) and suppresses auto-scroll unless
`autoScroll` is truthy. -/
theorem c3_cursor_capture_and_precedence (st : InstanceState) (opts : Options) :
    ((preservedCursor (udirState st opts) opts).isSome
        ↔ opts.autoCursor = some false)
    ∧ (∀ c : Position, opts.cursor = some c →
        Call.setCursor ((preservedCursor (udirState st opts) opts).getD c)
          (!truthyOB opts.autoScroll) ∈ (update st opts).2) := by
  constructor
  · cases h : opts.autoCursor with
    | none => simp [preservedCursor, truthyOB, h]
    | some b => cases b <;> simp [preservedCursor, truthyOB, h]
  · intro c hc
    rw [update_calls_eq]
    refine List.mem_append.mpr (Or.inr (List.mem_append.mpr
      (Or.inr (List.mem_append.mpr (Or.inl ?_)))))
    rw [hc]
    exact cursorPhase_setCursor_mem _ _ _ _ _ _

/-- Witness for C3 at a concrete input: with `autoCursor: false` and a
requested cursor of `(1, 2)`, the capture happens and the `setCursor` call
uses the preserved cursor with scrolling suppressed. -/
theorem c3_witness :
    ((preservedCursor (udirState stHasA optsCursor) optsCursor).isSome
        ↔ optsCursor.autoCursor = some false)
    ∧ Call.setCursor
        ((preservedCursor (udirState stHasA optsCursor) optsCursor).getD ⟨1, 2⟩)
        (!truthyOB optsCursor.autoScroll) ∈ (update stHasA optsCursor).2 :=
  ⟨(c3_cursor_capture_and_precedence stHasA optsCursor).1,
   (c3_cursor_capture_and_precedence stHasA optsCursor).2 ⟨1, 2⟩ rfl⟩

/-- C6: a configuration key whose value in the current update's configuration
equals its value in the previous update's configuration produces no
`setOption` call for that key in the current update. -/
theorem c6_unchanged_key_not_applied
    (st : InstanceState) (p q : Options) (k : String) (v : JSVal)
    (hk : k ∈ configKeys p.config)
    (heq : cfgGet q.config k = cfgGet p.config k) :
    Call.setOption k v ∉ (update (update st p).1 q).2 := by
  intro hmem
  have heo : eoGet (udirState (update st p).1 q).editorOptions k
      = cfgGet q.config k := by
    rw [udir_editorOptions, eoGet_update st p k hk, heq]
  have hnd : k ∉ configDelta (udirState (update st p).1 q).editorOptions
      q.config := by
    intro hmemd
    unfold configDelta at hmemd
    rcases List.mem_filter.mp hmemd with ⟨_, hcond⟩
    rw [decide_eq_true_eq] at hcond
    exact hcond heo
  rw [update_calls_eq] at hmem
  rcases List.mem_append.mp hmem with h | h
  · rcases udir_calls_shape _ _ with he | he <;> rw [he] at h
    · simp at h
    · exact Call.noConfusion (List.mem_singleton.mp h)
  · rcases List.mem_append.mp h with h | h
    · exact applyKeys_setOption_notMem _ _ _ _ _ hnd h
    · rcases List.mem_append.mp h with h | h
      · rcases cursorPhase_calls_shape _ _ _ _ _ _ _ h with h1 | ⟨pp, b, h1⟩
        · exact Call.noConfusion h1
        · exact Call.noConfusion h1
      · rcases scrollPhase_calls_shape _ _ h with ⟨x, y, h1⟩
        exact Call.noConfusion h1

/-- Witness for C6 at a concrete input: two consecutive updates with the same
`theme` configuration make no `setOption("theme", ...)` call in the second
update. -/
theorem c6_witness :
    Call.setOption "theme" (JSVal.str "dark")
      ∉ (update (update stHasA optsTheme).1 optsTheme).2 :=
  c6_unchanged_key_not_applied stHasA optsTheme optsTheme "theme"
    (JSVal.str "dark") (by decide) rfl

/-- C7: after construction and after every update, the editor's displayed
document is the one registered in the `docs` registry under the current
identifier (`docName`, defaulting to the empty string); and when no
document was registered under that identifier, a fresh document built from
the current value and the configured mode is the one registered and
displayed. -/
theorem c7_displayed_doc_matches_registry (st : InstanceState)
    (opts q : Options) (v : String) :
    lookupA (mkInstance opts).1.docs (opts.docName.getD "")
        = some ((mkInstance opts).1.curDoc)
    ∧ lookupA (update st q).1.docs (q.docName.getD "")
        = some ((update st q).1.curDoc)
    ∧ (q.doc = none → lookupA st.docs (q.docName.getD "") = none →
        q.value = some v →
        (docAt (update st q).1.store ((update st q).1.curDoc)).text = v
        ∧ (docAt (update st q).1.store ((update st q).1.curDoc)).mode
            = cfgGet q.config "mode") := by
  have hmk : ∀ (s : InstanceState) (o : Options),
      lookupA (udirState s o).docs (o.docName.getD "")
        = some ((udirState s o).curDoc) := by
    intro s o
    rw [udir_docs, udir_curDoc, lookupA_setA_self]
  refine ⟨hmk (initialState opts) opts, ?_, ?_⟩
  · rw [update_docs, update_curDoc]
    exact hmk st q
  · intro hdoc hlook hval
    have hcd : (update st q).1.curDoc = st.nextId := by
      rw [update_curDoc, udir_curDoc]
      simp only [resolvedDocId, hdoc, hlook]
    constructor
    · rw [update_store_eq, cursorPhase_text, hcd]
      unfold docAt
      rw [udir_store_creation st q hdoc hlook, hval]
      rfl
    · rw [update_store_eq, cursorPhase_mode, hcd]
      unfold docAt
      rw [udir_store_creation st q hdoc hlook]
      rfl

/-- Witness for C7 at a concrete input: updating the mounted instance with
the fresh `docName: "n"` and `value: "hello"` registers and displays a new
document with text `"hello"` and the configured (absent) mode. -/
theorem c7_witness :
    lookupA (mkInstance optsDocN).1.docs (optsDocN.docName.getD "")
        = some ((mkInstance optsDocN).1.curDoc)
    ∧ (docAt (update stHasA optsDocN).1.store
          ((update stHasA optsDocN).1.curDoc)).text = "hello"
    ∧ (docAt (update stHasA optsDocN).1.store
          ((update stHasA optsDocN).1.curDoc)).mode
        = cfgGet optsDocN.config "mode" :=
  ⟨(c7_displayed_doc_matches_registry stHasA optsDocN optsDocN "hello").1,
   ((c7_displayed_doc_matches_registry stHasA optsDocN optsDocN "hello").2.2
      rfl (by decide) rfl).1,
   ((c7_displayed_doc_matches_registry stHasA optsDocN optsDocN "hello").2.2
      rfl (by decide) rfl).2⟩

/-- C2: with the editor displaying document `dA` registered under name `A`,
updating to `docName B` and back to `docName A` swaps the very same
document object `dA` (by identity) back into the editor; the state held by
that document object (cursor, selection, undo history) is untouched by the
intervening update; and registry entries are never removed by any update. -/
theorem c2_docName_roundtrip_identity
    (st : InstanceState) (pA pB : Options) (A B : String) (dA : Nat)
    (hAn : pA.docName = some A) (hAdoc : pA.doc = none)
    (hBn : pB.docName = some B) (hBdoc : pB.doc = none)
    (hAB : A ≠ B)
    (hreg : lookupA st.docs A = some dA)
    (hcur : st.curDoc = dA)
    (hfr : dA < st.nextId)
    (hBne : ∀ dB, lookupA st.docs B = some dB → dB ≠ dA) :
    ((update (update st pB).1 pA).1.curDoc = dA)
    ∧ lookupA (update st pB).1.store dA = lookupA st.store dA
    ∧ ∀ (q : Options) (k : String),
        (lookupA st.docs k).isSome → (lookupA (update st q).1.docs k).isSome := by
  have hnameB : pB.docName.getD "" = B := by rw [hBn]; rfl
  have hnameA : pA.docName.getD "" = A := by rw [hAn]; rfl
  have hrB : resolvedDocId st pB ≠ dA := by
    simp only [resolvedDocId, hBdoc, hnameB]
    cases h : lookupA st.docs B with
    | none => exact (Nat.ne_of_lt hfr).symm
    | some dB => exact hBne dB h
  have hdocs1 : (update st pB).1.docs = setA st.docs B (resolvedDocId st pB) := by
    rw [update_docs, udir_docs, hnameB]
  have hlookA : lookupA (update st pB).1.docs A = some dA := by
    rw [hdocs1, lookupA_setA_ne st.docs B A _ (Ne.symm hAB)]
    exact hreg
  have hresA : resolvedDocId (update st pB).1 pA = dA := by
    simp only [resolvedDocId, hAdoc, hnameA, hlookA]
  have hc1 : (update (update st pB).1 pA).1.curDoc = dA := by
    rw [update_curDoc, udir_curDoc, hresA]
  have hc3 : ∀ (q : Options) (k : String),
      (lookupA st.docs k).isSome → (lookupA (update st q).1.docs k).isSome := by
    intro q k hk
    rw [update_docs, udir_docs]
    exact lookupA_setA_isSome _ _ _ _ hk
  exact ⟨hc1, update_store_frame st pB dA hfr hrB, hc3⟩

/-- Witness for C2 at concrete inputs: the instance mounted with
`docName: "a"` (document id 1), updated to `docName: "b"` and back to
`docName: "a"`, again displays document id 1, whose stored state the
`"b"` update did not touch. -/
theorem c2_witness :
    ((update (update stDocA optsDocB).1 optsDocA).1.curDoc = 1)
    ∧ lookupA (update stDocA optsDocB).1.store 1 = lookupA stDocA.store 1
    ∧ ∀ (q : Options) (k : String),
        (lookupA stDocA.docs k).isSome
          → (lookupA (update stDocA q).1.docs k).isSome :=
  c2_docName_roundtrip_identity stDocA optsDocA optsDocB "a" "b" 1
    rfl rfl rfl rfl (by decide) (by decide) (by decide) (by decide)
    (fun dB h => nomatch h)

end UseCodeMirror
